import Mathlib

/-!
Shallow embedding of the WeatherData wind-tile pipeline
(`src/scripts/wind/extract_wind_from_grib.py` and
`src/scripts/wind/generate_wind_tiles.py`) together with theorems settling
the spec claims.  Exact rational arithmetic models the scalar float
computations; real numbers model the transcendental Mercator tile math.
-/

/-! ### Vector codec (extract_wind_from_grib.py lines 59-61, 229-233;
generate_wind_tiles.py lines 55-56, 77-117) -/

/-- Constant `WIND_MIN = -50.0` (m/s). -/
def WIND_MIN : ℚ := -50

/-- Constant `WIND_MAX = 50.0` (m/s). -/
def WIND_MAX : ℚ := 50

/-- Model of `np.clip(value, lo, hi)` for scalars: `min(max(value, lo), hi)`. -/
def npClip (value lo hi : ℚ) : ℚ := min (max value lo) hi

/-- Model of `astype(np.uint8)` applied to a float known to lie in `[0, 255]`:
the C cast truncates toward zero, which on nonnegative input is the floor. -/
def toUint8 (x : ℚ) : ℕ := (Int.floor x).toNat

/-- Embedding of `encode_wind_component` (generate_wind_tiles.py lines 77-101,
identically extract_wind_from_grib.py lines 229-233):
`clipped = np.clip(value, vmin, vmax)`;
`normalized = (clipped - vmin) / (vmax - vmin)`;
`encoded = (normalized * 255).astype(np.uint8)`. -/
def encode_wind_component (value : ℚ) : ℕ :=
  toUint8 ((npClip value WIND_MIN WIND_MAX - WIND_MIN) / (WIND_MAX - WIND_MIN) * 255)

/-- Embedding of `decode_wind_component` (generate_wind_tiles.py lines
104-117): `normalized = encoded.astype(np.float32) / 255.0`;
result `normalized * (vmax - vmin) + vmin`. -/
def decode_wind_component (encoded : ℕ) : ℚ :=
  (encoded : ℚ) / 255 * (WIND_MAX - WIND_MIN) + WIND_MIN

/-! ### Cycle resolver (extract_wind_from_grib.py lines 84-112).
Timestamps are modelled as nonnegative integer counts of seconds (UTC).
`replace(minute=0, second=0, microsecond=0)` truncates to the hour;
`int(...total_seconds() / 3600)` on a nonnegative span is integer division. -/

/-- Truncation of a timestamp (in seconds) down to the whole hour, the model
of `cycle_time.replace(minute=0, second=0, microsecond=0)`. -/
def truncHour (t : ℕ) : ℕ := t / 3600 * 3600

/-- One candidate of the resolver loop body: `cycle_time = target -
hours_back hours`, truncated to the hour, paired with
`fxx = int((target - cycle_time).total_seconds() / 3600)`. -/
def hrrrCandidate (t hoursBack : ℕ) : ℕ × ℕ :=
  let cycle := truncHour (t - hoursBack * 3600)
  (cycle, (t - cycle) / 3600)

/-- The scan of `get_best_hrrr_cycle` over the `hours_back` list: accept the
first candidate with `0 <= fxx <= 18` (`0 <=` is automatic on ℕ); when the
list is exhausted, fall back to two hours back with `fxx = 0`
(extract_wind_from_grib.py lines 110-112). -/
def hrrrScan (t : ℕ) : List ℕ → ℕ × ℕ
  | [] => (truncHour (t - 2 * 3600), 0)
  | hb :: rest =>
    let c := hrrrCandidate t hb
    if c.2 ≤ 18 then c else hrrrScan t rest

/-- Embedding of `get_best_hrrr_cycle` (extract_wind_from_grib.py lines
84-112): `for hours_back in range(1, 6)` then the fallback. -/
def get_best_hrrr_cycle (t : ℕ) : ℕ × ℕ := hrrrScan t [1, 2, 3, 4, 5]

/-- Helper: for any target at least one hour after the epoch the resolver
accepts its very first candidate, returning the hour-truncated target minus
one hour, with a lead of exactly one hour. -/
theorem hrrr_first_candidate (t : ℕ) (h : 3600 ≤ t) :
    get_best_hrrr_cycle t = (truncHour t - 3600, 1) := by
  have h1 : truncHour (t - 1 * 3600) = truncHour t - 3600 := by
    unfold truncHour
    omega
  have h2 : (t - (truncHour t - 3600)) / 3600 = 1 := by
    unfold truncHour
    omega
  simp only [get_best_hrrr_cycle, hrrrScan, hrrrCandidate, h1, h2]
  norm_num

/-- Helper: the encoder sends 0 m/s to byte 127, because
`(0.5 * 255).astype(np.uint8)` truncates `127.5`. -/
theorem encode_wind_component_zero : encode_wind_component 0 = 127 := by
  unfold encode_wind_component toUint8 npClip WIND_MIN WIND_MAX
  norm_num
  decide

/-- C1: the claim says `encode_wind_component 0 = 128`, and the function's own
docstring ("0 m/s maps to 128") and the emitted metadata ("128 = 0 m/s") say
the same; the code instead computes `(0.5 * 255).astype(np.uint8)`, and the
cast truncates `127.5` to `127`. -/
theorem encode_zero_gives_127 :
    encode_wind_component 0 = 127 ∧ encode_wind_component 0 ≠ 128 :=
  ⟨encode_wind_component_zero, by rw [encode_wind_component_zero]; decide⟩

/-- C3: the claimed half-step round-trip bound fails at `v = -49.75`:
the byte truncation (not rounding) makes the quantization error reach a full
step, and here `decode (encode (-49.75)) = -50`, an error of `0.25`, while
half a quantization step is `100 / 510 < 0.25`. -/
theorem roundtrip_halfstep_fails :
    decode_wind_component (encode_wind_component (-199 / 4)) = -50 ∧
    |decode_wind_component (encode_wind_component (-199 / 4)) - (-199 / 4)| =
      1 / 4 ∧
    ¬ |decode_wind_component (encode_wind_component (-199 / 4)) - (-199 / 4)| ≤
      (WIND_MAX - WIND_MIN) / 510 := by
  have he : encode_wind_component (-199 / 4) = 0 := by
    unfold encode_wind_component toUint8 npClip WIND_MIN WIND_MAX
    norm_num
  have hd : decode_wind_component 0 = -50 := by
    unfold decode_wind_component WIND_MIN WIND_MAX
    norm_num
  rw [he, hd]
  refine ⟨rfl, by norm_num [abs_of_nonpos], ?_⟩
  rw [show |(-50 : ℚ) - -199 / 4| = 1 / 4 by norm_num [abs_of_nonpos]]
  unfold WIND_MAX WIND_MIN
  norm_num

/-- C5: for any target at least one hour past the epoch, the resolver's
result `(cycle, lead)` has `cycle` truncated to the hour, satisfies
`cycle + lead * 3600 = truncHour target` (cycle plus lead equals the target
valid time truncated to the hour) and `lead ≤ 18`; and the exhausted-scan
fallback is the candidate two hours back with lead `0`. -/
theorem get_best_hrrr_cycle_invariants (t : ℕ) (h : 3600 ≤ t) :
    (get_best_hrrr_cycle t).1 % 3600 = 0 ∧
    (get_best_hrrr_cycle t).1 + 3600 * (get_best_hrrr_cycle t).2 = truncHour t ∧
    (get_best_hrrr_cycle t).2 ≤ 18 ∧
    hrrrScan t [] = (truncHour (t - 2 * 3600), 0) := by
  rw [hrrr_first_candidate t h]
  refine ⟨?_, ?_, ?_, rfl⟩ <;>
    · unfold truncHour
      omega

/-- Witness for C5 at the concrete target timestamp 7200 s. -/
theorem get_best_hrrr_cycle_invariants_witness :
    (get_best_hrrr_cycle 7200).1 % 3600 = 0 ∧
    (get_best_hrrr_cycle 7200).1 + 3600 * (get_best_hrrr_cycle 7200).2 =
      truncHour 7200 ∧
    (get_best_hrrr_cycle 7200).2 ≤ 18 ∧
    hrrrScan 7200 [] = (truncHour (7200 - 2 * 3600), 0) :=
  get_best_hrrr_cycle_invariants 7200 (by norm_num)

/-- C10: the resolver always accepts its very first candidate: since the
candidate cycle is truncated to the hour after subtracting one hour, the
computed lead is exactly 1 and always in band, so the result is always the
hour-truncated target minus one hour with lead 1 (the later iterations and
the fallback are unreachable). -/
theorem get_best_hrrr_cycle_first_iteration (t : ℕ) (h : 3600 ≤ t) :
    get_best_hrrr_cycle t = (truncHour t - 3600, 1) :=
  hrrr_first_candidate t h

/-- Witness for C10 at the concrete target timestamp 9000 s. -/
theorem get_best_hrrr_cycle_first_iteration_witness :
    get_best_hrrr_cycle 9000 = (truncHour 9000 - 3600, 1) :=
  get_best_hrrr_cycle_first_iteration 9000 (by norm_num)

/-! ### Wind image creation (extract_wind_from_grib.py lines 236-259;
generate_wind_tiles.py lines 196-232).  All four channel computations are
elementwise, so the image is modelled per pixel.  A cell value is
`Option ℚ`, with `none` modelling a NaN float. -/

/-- Result of `astype(np.uint8)` on a NaN float: numpy's float-to-integer
cast of NaN goes through int64 (giving INT64_MIN with an invalid-value
warning) and wraps to 0 in uint8 on the platforms numpy supports.  The
subsequent `np.nan_to_num(..., nan=128)` in the source acts on an array
that is already of integer dtype and is therefore a no-op, so this cast
result is what the image actually holds. -/
def uint8OfNaN : ℕ := 0

/-- Per-cell R/G channel of `create_wind_image`: `encode_wind_component`
applied to the cell, followed by the no-op
`np.nan_to_num(r_channel, nan=128)`. -/
def rgChannelCell (c : Option ℚ) : ℕ :=
  match c with
  | some v => encode_wind_component v
  | none => uint8OfNaN

/-- Model of `np.clip` over the reals (used by the magnitude channel). -/
noncomputable def npClipR (value lo hi : ℝ) : ℝ := min (max value lo) hi

/-- Constant `max_speed = math.sqrt(WIND_MAX**2 + WIND_MAX**2)`. -/
noncomputable def max_speed : ℝ :=
  Real.sqrt ((WIND_MAX : ℝ) ^ 2 + (WIND_MAX : ℝ) ^ 2)

/-- Per-cell B channel of `create_wind_image`:
`magnitude = np.sqrt(u**2 + v**2)` and
`np.clip(magnitude / max_speed * 255, 0, 255).astype(np.uint8)`;
a NaN input propagates through sqrt, division and clip to the cast. -/
noncomputable def bChannelCell (u v : Option ℚ) : ℕ :=
  match u, v with
  | some a, some b =>
    (Int.floor (npClipR (Real.sqrt ((a : ℝ) ^ 2 + (b : ℝ) ^ 2) / max_speed * 255)
      0 255)).toNat
  | _, _ => uint8OfNaN

/-- Per-cell alpha channel of `create_wind_image` (extract_wind_from_grib.py
lines 247-251): when a `valid_mask` argument is supplied it is used
(`np.where(valid_mask, 255, 0)`); otherwise alpha is 0 exactly at NaN cells
(`np.where(np.isnan(u_data) | np.isnan(v_data), 0, 255)`). -/
def alphaChannelCell (u v : Option ℚ) (validMask : Option Bool) : ℕ :=
  match validMask with
  | some m => if m then 255 else 0
  | none => if u.isNone || v.isNone then 0 else 255

/-- Pixelwise model of `create_wind_image`: returns (R, G, B, A) for one
pixel given its u cell, v cell and (optional) valid-mask entry. -/
noncomputable def create_wind_image_pixel (u v : Option ℚ)
    (validMask : Option Bool) : ℕ × ℕ × ℕ × ℕ :=
  (rgChannelCell u, rgChannelCell v, bChannelCell u v,
    alphaChannelCell u v validMask)

/-- C4: the claimed channel values at invalid cells do not all hold.  At a
resampler-invalid cell (mask entry `false`, u and v zeroed by the
resampler) alpha is 0 as claimed but R/G are 127, not 128 (truncation of
127.5); at a NaN cell with no mask alpha is 0 and B is 0 as claimed, but
R/G hold the uint8 cast of NaN (0), not 128, because
`np.nan_to_num(..., nan=128)` runs after the uint8 cast and is a no-op on
an integer array.  A supplied mask does win over NaN-based alpha. -/
theorem create_wind_image_invalid_cell_channels :
    create_wind_image_pixel (some 0) (some 0) (some false) = (127, 127, 0, 0) ∧
    create_wind_image_pixel none none none = (0, 0, 0, 0) ∧
    (create_wind_image_pixel none none (some true)).2.2.2 = 255 ∧
    (127 : ℕ) ≠ 128 ∧ (0 : ℕ) ≠ 128 := by
  refine ⟨?_, ?_, ?_, by decide, by decide⟩
  · simp only [create_wind_image_pixel, rgChannelCell, bChannelCell,
      alphaChannelCell, encode_wind_component_zero]
    norm_num [npClipR, Real.sqrt_zero]
  · simp only [create_wind_image_pixel, rgChannelCell, bChannelCell,
      alphaChannelCell, uint8OfNaN]
    norm_num
  · simp only [create_wind_image_pixel, alphaChannelCell]
    norm_num

/-! ### Grid resampler (extract_wind_from_grib.py lines 181-226). -/

/-- One source sample of the irregular source grid: its (lat, lon) position
and its u/v wind components. -/
structure SrcSample where
  lat : ℚ
  lon : ℚ
  u : ℚ
  v : ℚ

/-- Squared planar (lat, lon) distance between a target point and a source
sample.  The k-d tree is built on
`np.column_stack([lats.ravel(), lons.ravel()])`, so its metric is planar
Euclidean in degrees; squared distances order exactly as distances do, so
the model compares squares to stay in ℚ. -/
def sqDist (p : ℚ × ℚ) (s : SrcSample) : ℚ :=
  (p.1 - s.lat) ^ 2 + (p.2 - s.lon) ^ 2

/-- Model of `tree.query(tgt_point, k=1)`: the source sample nearest to `p`,
ties resolved to the earliest sample (one admissible k-d tree answer).
`none` only for an empty source list. -/
def nearestSample : List SrcSample → ℚ × ℚ → Option SrcSample
  | [], _ => none
  | s :: rest, p =>
    match nearestSample rest p with
    | none => some s
    | some b => if sqDist p b < sqDist p s then some b else some s

/-- Squared distance cutoff: the source masks `dist <= 0.15` degrees
(extract_wind_from_grib.py lines 218-219). -/
def MAX_DIST_SQ : ℚ := (15 / 100) ^ 2

/-- Model of one output cell of `reproject_to_wgs84` (lines 210-226): the
cell receives the nearest sample's u and v (`u_data.ravel()[idx]`), then
`mask = dist <= 0.15` and `u_out[~mask] = 0; v_out[~mask] = 0`.  Returns
(u, v, valid).  The `none` branch is unreachable for the nonempty source
grids the pipeline feeds (an empty source would crash the real code). -/
def reproject_cell (src : List SrcSample) (p : ℚ × ℚ) : ℚ × ℚ × Bool :=
  match nearestSample src p with
  | none => (0, 0, false)
  | some s =>
    if sqDist p s ≤ MAX_DIST_SQ then (s.u, s.v, true) else (0, 0, false)

/-- Helper: a nonempty source list always has a nearest sample. -/
theorem nearestSample_ne_none (src : List SrcSample) (p : ℚ × ℚ)
    (h : src ≠ []) : ∃ s, nearestSample src p = some s := by
  match src with
  | [] => exact absurd rfl h
  | x :: xs =>
    simp only [nearestSample]
    match nearestSample xs p with
    | none => exact ⟨x, rfl⟩
    | some b =>
      by_cases hb : sqDist p b < sqDist p x
      · exact ⟨b, if_pos hb⟩
      · exact ⟨x, if_neg hb⟩

/-- Helper: the nearest sample is a member of the source list and is at
minimal squared distance among all its members. -/
theorem nearestSample_spec (p : ℚ × ℚ) :
    ∀ (src : List SrcSample) (s : SrcSample), nearestSample src p = some s →
      s ∈ src ∧ ∀ t ∈ src, sqDist p s ≤ sqDist p t := by
  intro src
  induction src with
  | nil => intro s h; cases h
  | cons x xs ih =>
    intro s h
    simp only [nearestSample] at h
    cases hxs : nearestSample xs p with
    | none =>
      rw [hxs] at h
      cases h
      have hempty : xs = [] := by
        cases xs with
        | nil => rfl
        | cons y ys =>
          obtain ⟨c, hc⟩ := nearestSample_ne_none (y :: ys) p (by simp)
          rw [hc] at hxs
          cases hxs
      subst hempty
      exact ⟨by simp, by simp⟩
    | some b =>
      rw [hxs] at h
      obtain ⟨hbmem, hbmin⟩ := ih b hxs
      have h' : (if sqDist p b < sqDist p x then some b else some x) = some s := h
      by_cases hb : sqDist p b < sqDist p x
      · rw [if_pos hb] at h'
        cases h'
        refine ⟨List.mem_cons_of_mem _ hbmem, ?_⟩
        intro t ht
        rcases List.mem_cons.mp ht with rfl | hts
        · exact le_of_lt hb
        · exact hbmin t hts
      · rw [if_neg hb] at h'
        cases h'
        refine ⟨List.mem_cons_self _ _, ?_⟩
        intro t ht
        rcases List.mem_cons.mp ht with rfl | hts
        · exact le_refl _
        · exact le_trans (not_lt.mp hb) (hbmin t hts)

/-- C6: distance-cutoff semantics of the resampled cell.  For a nonempty
source grid: if every source sample is farther than the cutoff (squared
comparison), the cell is `(0, 0, invalid)`; if some sample is within the
cutoff, the cell holds exactly the u/v of a nearest source sample and is
valid. -/
theorem reproject_cell_cutoff (src : List SrcSample) (p : ℚ × ℚ)
    (hne : src ≠ []) :
    ((∀ s ∈ src, MAX_DIST_SQ < sqDist p s) →
      reproject_cell src p = (0, 0, false)) ∧
    ((∃ s ∈ src, sqDist p s ≤ MAX_DIST_SQ) →
      ∃ s ∈ src, (∀ t ∈ src, sqDist p s ≤ sqDist p t) ∧
        reproject_cell src p = (s.u, s.v, true)) := by
  obtain ⟨s0, hs0⟩ := nearestSample_ne_none src p hne
  obtain ⟨hmem, hmin⟩ := nearestSample_spec p src s0 hs0
  constructor
  · intro hfar
    simp only [reproject_cell, hs0]
    rw [if_neg (not_le.mpr (hfar s0 hmem))]
  · rintro ⟨s1, hs1, hnear⟩
    refine ⟨s0, hmem, hmin, ?_⟩
    simp only [reproject_cell, hs0]
    rw [if_pos (le_trans (hmin s1 hs1) hnear)]

/-- Witness for C6: with two source samples both farther than the cutoff
from target point (10, 10), the cell is zeroed and invalid. -/
theorem reproject_cell_cutoff_witness :
    reproject_cell ([⟨0, 0, 3, 4⟩, ⟨1, 1, 5, 6⟩] : List SrcSample) (10, 10) =
      (0, 0, false) :=
  (reproject_cell_cutoff _ _ (List.cons_ne_nil _ _)).1 (by
    intro s hs
    fin_cases hs <;> norm_num [sqDist, MAX_DIST_SQ])

/-! ### Target grid (extract_wind_from_grib.py lines 63-71, 202-208). -/

/-- Constant `OUTPUT_BOUNDS['west']`. -/
def OUTPUT_WEST : ℚ := -134.1

/-- Constant `OUTPUT_BOUNDS['east']`. -/
def OUTPUT_EAST : ℚ := -60.9

/-- Constant `OUTPUT_BOUNDS['south']`. -/
def OUTPUT_SOUTH : ℚ := 21.1

/-- Constant `OUTPUT_BOUNDS['north']`. -/
def OUTPUT_NORTH : ℚ := 52.6

/-- Constant `OUTPUT_WIDTH`. -/
def OUTPUT_WIDTH : ℕ := 1799

/-- Constant `OUTPUT_HEIGHT`. -/
def OUTPUT_HEIGHT : ℕ := 1059

/-- Model of `np.linspace(a, b, n)` at index `i`: `n` evenly spaced values
from `a` to `b`, both endpoints included. -/
def linspace (a b : ℚ) (n i : ℕ) : ℚ := a + i * (b - a) / ((n : ℚ) - 1)

/-- Latitude of resampled row `i`:
`tgt_lats = np.linspace(N, S, OUTPUT_HEIGHT)` (extract_wind_from_grib.py
line 206), running north to south for image row order. -/
def tgt_lat (i : ℕ) : ℚ := linspace OUTPUT_NORTH OUTPUT_SOUTH OUTPUT_HEIGHT i

/-- Longitude of resampled column `j`:
`tgt_lons = np.linspace(W, E, OUTPUT_WIDTH)` (line 205), west to east. -/
def tgt_lon (j : ℕ) : ℚ := linspace OUTPUT_WEST OUTPUT_EAST OUTPUT_WIDTH j

/-- C7: row 0 of the resampled grid is at the north edge and the last row at
the south edge; latitude strictly decreases with the row index and
longitude strictly increases with the column index across the grid. -/
theorem target_grid_north_up (i j : ℕ) (hij : i < j) :
    tgt_lat 0 = OUTPUT_NORTH ∧
    tgt_lat (OUTPUT_HEIGHT - 1) = OUTPUT_SOUTH ∧
    (j ≤ OUTPUT_HEIGHT - 1 → tgt_lat j < tgt_lat i) ∧
    (j ≤ OUTPUT_WIDTH - 1 → tgt_lon i < tgt_lon j) := by
  have hq : (i : ℚ) < (j : ℚ) := by exact_mod_cast hij
  refine ⟨?_, ?_, fun hjr => ?_, fun hjc => ?_⟩
  · unfold tgt_lat linspace OUTPUT_NORTH OUTPUT_HEIGHT
    norm_num
  · unfold tgt_lat linspace OUTPUT_NORTH OUTPUT_SOUTH OUTPUT_HEIGHT
    norm_num
  · unfold tgt_lat linspace OUTPUT_NORTH OUTPUT_SOUTH OUTPUT_HEIGHT
    norm_num
    linarith
  · unfold tgt_lon linspace OUTPUT_WEST OUTPUT_EAST OUTPUT_WIDTH
    norm_num
    linarith

/-- Witness for C7 at rows/columns 0 and 1. -/
theorem target_grid_north_up_witness :
    tgt_lat 1 < tgt_lat 0 ∧ tgt_lon 0 < tgt_lon 1 :=
  ⟨(target_grid_north_up 0 1 (by norm_num)).2.2.1 (by norm_num [OUTPUT_HEIGHT]),
    (target_grid_north_up 0 1 (by norm_num)).2.2.2 (by norm_num [OUTPUT_WIDTH])⟩

/-! ### Batch processing (extract_wind_from_grib.py lines 288-346 and
586-590). -/

/-- Model of the `process_herbie` batch loop: for each requested
forecast-hour offset, the decode collaborator (`download_herbie_wind`)
either yields data (`some`) or fails (`none`, covering the caught and
logged download failure); a failed unit is skipped (`continue`) and each
successful unit runs the rest of the loop body and increments
`processed`. -/
def process_herbie {α : Type} (fetch : ℤ → Option α) (units : List ℤ) : ℕ :=
  units.foldl (fun processed fxx =>
    match fetch fxx with
    | none => processed
    | some _ => processed + 1) 0

/-- Model of the exit status computed in `main` (line 590):
`sys.exit(0 if processed > 0 else 1)`. -/
def mainExitCode (processed : ℕ) : ℕ := if 0 < processed then 0 else 1

/-- Helper: the batch fold counts exactly the units whose fetch succeeds,
from any starting count. -/
theorem process_herbie_counts {α : Type} (fetch : ℤ → Option α) :
    ∀ (units : List ℤ) (n : ℕ),
      units.foldl (fun processed fxx =>
        match fetch fxx with
        | none => processed
        | some _ => processed + 1) n =
      n + (units.filter (fun u => (fetch u).isSome)).length := by
  intro units
  induction units with
  | nil => intro n; simp
  | cons x xs ih =>
    intro n
    simp only [List.foldl_cons, List.filter_cons]
    cases hx : fetch x with
    | none => simp [hx, ih n]
    | some a =>
      simp only [hx, Option.isSome_some, if_pos]
      rw [ih (n + 1)]
      simp only [List.length_cons]
      omega

/-- C8: a per-unit decode failure skips only that unit (the processed count
equals the number of units whose fetch succeeded, wherever the failures
sit in the batch), and the run exits with the fatal status 1 exactly when
no unit succeeded. -/
theorem process_herbie_skip_and_exit {α : Type} (fetch : ℤ → Option α)
    (units : List ℤ) :
    process_herbie fetch units =
      (units.filter (fun u => (fetch u).isSome)).length ∧
    (mainExitCode (process_herbie fetch units) = 1 ↔
      ∀ u ∈ units, fetch u = none) := by
  have hfil : process_herbie fetch units =
      (units.filter (fun u => (fetch u).isSome)).length := by
    unfold process_herbie
    rw [process_herbie_counts fetch units 0]
    omega
  refine ⟨hfil, ?_⟩
  rw [hfil]
  have hexit : ∀ n, mainExitCode n = 1 ↔ n = 0 := by
    intro n
    unfold mainExitCode
    by_cases h : 0 < n
    · rw [if_pos h]
      omega
    · rw [if_neg h]
      omega
  rw [hexit, List.length_eq_zero, List.filter_eq_nil_iff]
  constructor
  · intro h u hu
    have := h u hu
    simpa [Option.not_isSome_iff_eq_none] using this
  · intro h u hu
    simp [h u hu]

/-! ### Longitude normalization (generate_wind_tiles.py lines 164-165;
extract_wind_from_grib.py lines 143-145 and 416-417). -/

/-- Elementwise longitude normalization
`np.where(lons > 180, lons - 360, lons)`. -/
def normalizeLon (l : ℚ) : ℚ := if l > 180 then l - 360 else l

/-- The unconditional whole-array normalization of
generate_wind_tiles.py line 165. -/
def normalizeLons (ls : List ℚ) : List ℚ := ls.map normalizeLon

/-- Model of `lons.max()` on a nonempty array (0 is a junk default for the
empty array, on which numpy would raise). -/
def lonsMax : List ℚ → ℚ
  | [] => 0
  | l :: ls => ls.foldl max l

/-- The guarded normalization
`if lons.max() > 180: lons = np.where(lons > 180, lons - 360, lons)` of
extract_wind_from_grib.py lines 144-145 (the same guard appears at lines
416-417). -/
def normalizeLonsGuarded (ls : List ℚ) : List ℚ :=
  if lonsMax ls > 180 then normalizeLons ls else ls

/-- C9 counterexample: a source longitude of exactly 180 degrees (inside the
upstream 0..360 range) is left at 180 by both normalization variants, and
180 is outside the claimed half-open interval, violating `l < 180`. -/
theorem normalize_lon_180_not_half_open :
    normalizeLons [180] = [180] ∧ normalizeLonsGuarded [180] = [180] ∧
    ¬ ((180 : ℚ) < 180) := by
  refine ⟨?_, ?_, lt_irrefl _⟩
  · norm_num [normalizeLons, normalizeLon]
  · norm_num [normalizeLonsGuarded, lonsMax, normalizeLons, normalizeLon]

/-- Helper: the starting accumulator is below a running maximum. -/
theorem le_foldl_max : ∀ (ls : List ℚ) (b : ℚ), b ≤ ls.foldl max b := by
  intro ls
  induction ls with
  | nil => intro b; exact le_refl b
  | cons x xs ih =>
    intro b
    calc b ≤ max b x := le_max_left b x
    _ ≤ xs.foldl max (max b x) := ih (max b x)

/-- Helper: every member is below the running maximum. -/
theorem mem_le_foldl_max :
    ∀ (ls : List ℚ) (b l : ℚ), l ∈ ls → l ≤ ls.foldl max b := by
  intro ls
  induction ls with
  | nil => intro b l hl; cases hl
  | cons x xs ih =>
    intro b l hl
    rcases List.mem_cons.mp hl with rfl | hxs
    · calc l ≤ max b l := le_max_right b l
      _ ≤ xs.foldl max (max b l) := le_foldl_max xs (max b l)
    · exact ih (max b x) l hxs

/-- Helper: every longitude of a nonempty array is bounded by `lons.max()`. -/
theorem le_lonsMax (ls : List ℚ) (l : ℚ) (h : l ∈ ls) : l ≤ lonsMax ls := by
  cases ls with
  | nil => cases h
  | cons x xs =>
    rcases List.mem_cons.mp h with rfl | hxs
    · exact le_foldl_max xs l
    · exact mem_le_foldl_max xs x l hxs

/-- Helper: one normalized longitude from the upstream 0..360 range lands in
the closed interval [-180, 180]. -/
theorem normalizeLon_mem_range (l : ℚ) (h0 : 0 ≤ l) (h1 : l < 360) :
    -180 ≤ normalizeLon l ∧ normalizeLon l ≤ 180 := by
  unfold normalizeLon
  by_cases h : l > 180
  · rw [if_pos h]
    constructor <;> linarith
  · rw [if_neg h]
    constructor <;> linarith

/-- C9 amended: when every source longitude lies in the upstream range
[0, 360), both normalization variants leave every longitude in the closed
interval [-180, 180]; the upper endpoint 180 can be attained (by input
exactly 180), so the half-open interval of the claim is off only there. -/
theorem normalized_lons_in_closed_range (ls : List ℚ)
    (h : ∀ l ∈ ls, 0 ≤ l ∧ l < 360) :
    (∀ m ∈ normalizeLons ls, -180 ≤ m ∧ m ≤ 180) ∧
    (∀ m ∈ normalizeLonsGuarded ls, -180 ≤ m ∧ m ≤ 180) := by
  have hmap : ∀ m ∈ normalizeLons ls, -180 ≤ m ∧ m ≤ 180 := by
    intro m hm
    simp only [normalizeLons] at hm
    obtain ⟨l, hl, rfl⟩ := List.mem_map.mp hm
    exact normalizeLon_mem_range l (h l hl).1 (h l hl).2
  refine ⟨hmap, ?_⟩
  unfold normalizeLonsGuarded
  by_cases hg : lonsMax ls > 180
  · rw [if_pos hg]
    exact hmap
  · rw [if_neg hg]
    intro m hm
    exact ⟨by linarith [(h m hm).1],
      le_trans (le_lonsMax ls m hm) (not_lt.mp hg)⟩

/-- Witness for C9 (amended) at the singleton input array [200]. -/
theorem normalized_lons_in_closed_range_witness :
    -180 ≤ normalizeLon 200 ∧ normalizeLon 200 ≤ 180 :=
  (normalized_lons_in_closed_range [200] (by
    intro l hl
    rw [List.mem_singleton] at hl
    subst hl
    norm_num)).1 (normalizeLon 200)
    (List.mem_map_of_mem normalizeLon (List.mem_singleton.mpr rfl))

/-! ### Tile partitioner (generate_wind_tiles.py lines 235-347).  The
Mercator tile-row computation is transcendental (`asinh`, `tan`), so this
part of the embedding lives over ℝ; Python `int()` truncates toward
zero. -/

/-- Model of Python `int()` on a float: truncation toward zero. -/
noncomputable def intTrunc (x : ℝ) : ℤ := if 0 ≤ x then ⌊x⌋ else ⌈x⌉

/-- Embedding of `latlon_to_tile` (generate_wind_tiles.py lines 235-241):
`n = 2 ** zoom`; `x = int((lon + 180) / 360 * n)`;
`y = int((1 - asinh(tan(radians(lat))) / pi) / 2 * n)`, with
`radians(lat) = lat * pi / 180`. -/
noncomputable def latlon_to_tile (lat lon : ℝ) (zoom : ℕ) : ℤ × ℤ :=
  (intTrunc ((lon + 180) / 360 * 2 ^ zoom),
   intTrunc ((1 - Real.arsinh (Real.tan (lat * Real.pi / 180)) / Real.pi) / 2 *
     2 ^ zoom))

/-- Geographic bounding box of one tile, fields in the return order of
`tile_bounds` (generate_wind_tiles.py lines 244-256). -/
structure TileBBox where
  west : ℝ
  south : ℝ
  east : ℝ
  north : ℝ

/-- Embedding of `tile_bounds` (lines 244-256): `west = x / n * 360 - 180`,
`east = (x + 1) / n * 360 - 180`,
`north = degrees(atan(sinh(pi * (1 - 2 * y / n))))`,
`south = degrees(atan(sinh(pi * (1 - 2 * (y + 1) / n))))`, with
`degrees(r) = r * 180 / pi`. -/
noncomputable def tile_bounds (x y : ℤ) (zoom : ℕ) : TileBBox where
  west := (x : ℝ) / 2 ^ zoom * 360 - 180
  south := Real.arctan (Real.sinh (Real.pi * (1 - 2 * ((y : ℝ) + 1) / 2 ^ zoom))) *
    180 / Real.pi
  east := ((x : ℝ) + 1) / 2 ^ zoom * 360 - 180
  north := Real.arctan (Real.sinh (Real.pi * (1 - 2 * (y : ℝ) / 2 ^ zoom))) *
    180 / Real.pi

/-- Geographic bounds of the data (`metadata['bounds']`,
generate_wind_tiles.py lines 283-285). -/
structure DataBounds where
  west : ℝ
  east : ℝ
  south : ℝ
  north : ℝ

/-- The per-tile pixel rectangle test of `generate_tiles` (lines 311-327):
the tile bbox is mapped linearly onto image pixel coordinates against the
data bounds, clipped to the image extent, and the tile is emitted iff the
clipped rectangle is nonempty (the code skips it when
`px_left >= px_right or px_top >= px_bottom`). -/
noncomputable def tileEmitted (b : DataBounds) (imgW imgH : ℕ) (zoom : ℕ)
    (tx ty : ℤ) : Prop :=
  max 0 (intTrunc (((tile_bounds tx ty zoom).west - b.west) /
      (b.east - b.west) * (imgW : ℝ))) <
    min (imgW : ℤ) (intTrunc (((tile_bounds tx ty zoom).east - b.west) /
      (b.east - b.west) * (imgW : ℝ))) ∧
  max 0 (intTrunc ((b.north - (tile_bounds tx ty zoom).north) /
      (b.north - b.south) * (imgH : ℝ))) <
    min (imgH : ℤ) (intTrunc ((b.north - (tile_bounds tx ty zoom).south) /
      (b.north - b.south) * (imgH : ℝ)))

/-- Python `range(a, b + 1)` over integers, as a list. -/
def intRangeIncl (a b : ℤ) : List ℤ :=
  (List.range (b + 1 - a).toNat).map (fun k => a + (k : ℤ))

open Classical in
/-- The (x, y) tile indices emitted by one zoom iteration of
`generate_tiles` (lines 293-342).  The corner conversions are
`min_tile_x, max_tile_y = latlon_to_tile(data_north, data_west, zoom)` and
`max_tile_x, min_tile_y = latlon_to_tile(data_south, data_east, zoom)`
(this is the assignment order in the source), each range is clamped to
`[0, 2 ** zoom - 1]`, and the double loop keeps the tiles whose clipped
pixel rectangle is nonempty. -/
noncomputable def tilesAtZoom (b : DataBounds) (imgW imgH : ℕ) (zoom : ℕ) :
    List (ℤ × ℤ) :=
  (intRangeIncl (max 0 (latlon_to_tile b.north b.west zoom).1)
      (min ((2 : ℤ) ^ zoom - 1) (latlon_to_tile b.south b.east zoom).1)).flatMap
    (fun tx =>
      ((intRangeIncl (max 0 (latlon_to_tile b.south b.east zoom).2)
          (min ((2 : ℤ) ^ zoom - 1) (latlon_to_tile b.north b.west zoom).2)).filter
        (fun ty => decide (tileEmitted b imgW imgH zoom tx ty))).map
        (fun ty => (tx, ty)))

/-- Intersection of a tile's bounding box with the data bounds, following
the claim's words ("tile bounding box intersects the data bounds"):
nonempty overlap of the closed longitude and latitude intervals.  This is
the spec-side characterization that the emitted tile set is compared
against. -/
def specTileIntersects (b : DataBounds) (zoom : ℕ) (tx ty : ℤ) : Prop :=
  (tile_bounds tx ty zoom).west ≤ b.east ∧ b.west ≤ (tile_bounds tx ty zoom).east ∧
  (tile_bounds tx ty zoom).south ≤ b.north ∧ b.south ≤ (tile_bounds tx ty zoom).north

/-- Concrete data bounds for the C2 counterexample: a 20-degree square
centered on the equator and prime meridian. -/
noncomputable def testBounds : DataBounds where
  west := -10
  east := 10
  south := -10
  north := 10

/-- Helper: `arsinh (tan 10°) > 0`. -/
theorem arsinh_tan_ten_pos : 0 < Real.arsinh (Real.tan (10 * Real.pi / 180)) := by
  rw [Real.arsinh_pos_iff]
  apply Real.tan_pos_of_pos_of_lt_pi_div_two
  · positivity
  · linarith [Real.pi_pos]

/-- Helper: the south edge of the test bounds lands in tile row at least 1
at zoom 1. -/
theorem testBounds_y_south :
    1 ≤ (latlon_to_tile testBounds.south testBounds.east 1).2 := by
  have ha := arsinh_tan_ten_pos
  have hπ := Real.pi_pos
  show 1 ≤ intTrunc ((1 - Real.arsinh (Real.tan ((-10 : ℝ) * Real.pi / 180)) /
    Real.pi) / 2 * 2 ^ (1 : ℕ))
  have hval : (1 - Real.arsinh (Real.tan ((-10 : ℝ) * Real.pi / 180)) /
      Real.pi) / 2 * 2 ^ (1 : ℕ) =
      1 + Real.arsinh (Real.tan (10 * Real.pi / 180)) / Real.pi := by
    rw [show ((-10 : ℝ) * Real.pi / 180) = -(10 * Real.pi / 180) by ring,
      Real.tan_neg, Real.arsinh_neg]
    ring
  rw [hval]
  have hd : 0 ≤ Real.arsinh (Real.tan (10 * Real.pi / 180)) / Real.pi := by
    positivity
  unfold intTrunc
  rw [if_pos (by linarith)]
  rw [Int.le_floor]
  push_cast
  linarith

/-- Helper: the north edge of the test bounds lands in tile row at most 0
at zoom 1. -/
theorem testBounds_y_north :
    (latlon_to_tile testBounds.north testBounds.west 1).2 ≤ 0 := by
  have ha := arsinh_tan_ten_pos
  have hπ := Real.pi_pos
  show intTrunc ((1 - Real.arsinh (Real.tan ((10 : ℝ) * Real.pi / 180)) /
    Real.pi) / 2 * 2 ^ (1 : ℕ)) ≤ 0
  have hval : (1 - Real.arsinh (Real.tan ((10 : ℝ) * Real.pi / 180)) /
      Real.pi) / 2 * 2 ^ (1 : ℕ) =
      1 - Real.arsinh (Real.tan (10 * Real.pi / 180)) / Real.pi := by
    ring
  rw [hval]
  have hd : 0 < Real.arsinh (Real.tan (10 * Real.pi / 180)) / Real.pi :=
    div_pos ha hπ
  unfold intTrunc
  by_cases h0 : (0 : ℝ) ≤ 1 - Real.arsinh (Real.tan (10 * Real.pi / 180)) / Real.pi
  · rw [if_pos h0]
    have : ⌊(1 : ℝ) - Real.arsinh (Real.tan (10 * Real.pi / 180)) / Real.pi⌋ <
        (1 : ℤ) := by
      rw [Int.floor_lt]
      push_cast
      linarith
    omega
  · rw [if_neg h0]
    rw [Int.ceil_le]
    push_cast
    linarith

/-- Helper: whenever the clamped y range is inverted, the emitted tile list
of the zoom iteration is empty. -/
theorem tilesAtZoom_eq_nil (b : DataBounds) (imgW imgH : ℕ) (zoom : ℕ)
    (h : min ((2 : ℤ) ^ zoom - 1) (latlon_to_tile b.north b.west zoom).2 <
      max 0 (latlon_to_tile b.south b.east zoom).2) :
    tilesAtZoom b imgW imgH zoom = [] := by
  unfold tilesAtZoom
  have hY : intRangeIncl (max 0 (latlon_to_tile b.south b.east zoom).2)
      (min ((2 : ℤ) ^ zoom - 1) (latlon_to_tile b.north b.west zoom).2) = [] := by
    unfold intRangeIncl
    rw [Int.toNat_eq_zero.mpr (by omega)]
    simp
  rw [hY]
  simp

/-- C2: at zoom 1 over the test bounds, every one of the four zoom-1 tiles
intersects the data bounds, yet `generate_tiles` emits none of them: the
source assigns the north corner's tile row to `max_tile_y` and the south
corner's to `min_tile_y` although the tile row index grows southward, so
the y loop range is empty whenever the bounds span more than one tile
row. -/
theorem generate_tiles_misses_intersecting_tiles :
    tilesAtZoom testBounds 100 100 1 = [] ∧
    specTileIntersects testBounds 1 0 0 ∧ specTileIntersects testBounds 1 0 1 ∧
    specTileIntersects testBounds 1 1 0 ∧ specTileIntersects testBounds 1 1 1 := by
  have hπ := Real.pi_pos
  have hsp : 0 < Real.sinh Real.pi := Real.sinh_pos_iff.mpr hπ
  have hap : 0 < Real.arctan (Real.sinh Real.pi) := by
    have h := Real.arctan_strictMono hsp
    rwa [Real.arctan_zero] at h
  have hdeg : 0 < Real.arctan (Real.sinh Real.pi) * 180 / Real.pi := by positivity
  refine ⟨?_, ?_, ?_, ?_, ?_⟩
  · apply tilesAtZoom_eq_nil
    have hs := testBounds_y_south
    have hn := testBounds_y_north
    have h2 : ((2 : ℤ) ^ (1 : ℕ) - 1) = 1 := by norm_num
    rw [h2]
    omega
  · simp only [specTileIntersects, tile_bounds, testBounds]
    push_cast
    norm_num [Real.sinh_zero, Real.arctan_zero]
    linarith
  · simp only [specTileIntersects, tile_bounds, testBounds]
    push_cast
    norm_num [Real.sinh_zero, Real.arctan_zero, Real.sinh_neg, Real.arctan_neg,
      neg_mul, neg_div]
    linarith
  · simp only [specTileIntersects, tile_bounds, testBounds]
    push_cast
    norm_num [Real.sinh_zero, Real.arctan_zero]
    linarith
  · simp only [specTileIntersects, tile_bounds, testBounds]
    push_cast
    norm_num [Real.sinh_zero, Real.arctan_zero, Real.sinh_neg, Real.arctan_neg,
      neg_mul, neg_div]
    linarith
